import Mathlib

/-!
Verification development for the SrotoLipiAI repository.

The repository is a browser front end around one generation call and one
text-to-speech call.  This file gives a shallow embedding of the pieces the
claims are about:

* the JavaScript runtime function JSON.parse, which the generation client
  applies to the response text without any further shape checking;
* the request-building and response-handling logic of the two variants of
  the generation client (src/services/geminiService.ts and
  src/unnamed/part_001);
* the input-collector, generation and history handlers of the two UI
  variants (src/SrotoLipiAI.tsx and src/unnamed/part_000);
* an event-level model of the text-to-speech playback toggle;
* the local-model chat loop, which the spec describes but whose code is
  not among the source files, modelled from the spec.
-/

namespace SrotoLipi

/-- A JSON value as produced by the JavaScript runtime function JSON.parse.
Numbers keep their source lexeme instead of a float, so no floating-point
semantics enters the embedding; object members keep source order. -/
inductive Json where
  | null
  | boolean (b : Bool)
  | number (lexeme : String)
  | str (s : String)
  | arr (items : List Json)
  | obj (fields : List (String × Json))

/-- The opening curly bracket character. -/
def lbrace : Char := Char.ofNat 123

/-- The closing curly bracket character. -/
def rbrace : Char := Char.ofNat 125

/-- JSON insignificant whitespace. -/
def jsonWs (c : Char) : Bool := c == ' ' || c == '\t' || c == '\n' || c == '\r'

/-- Drop leading JSON whitespace. -/
def dropWs : List Char → List Char
  | [] => []
  | c :: cs => if jsonWs c then dropWs cs else c :: cs

/-- Split a character list into its leading run of decimal digits and the rest. -/
def digitSpan : List Char → List Char × List Char
  | [] => ([], [])
  | c :: cs =>
    if c.isDigit then
      let p := digitSpan cs
      (c :: p.1, p.2)
    else ([], c :: cs)

/-- Value of one hexadecimal digit. -/
def hexDigitVal (c : Char) : Option Nat :=
  if c.isDigit then some (c.toNat - 48)
  else if 'a' ≤ c && c ≤ 'f' then some (c.toNat - 87)
  else if 'A' ≤ c && c ≤ 'F' then some (c.toNat - 55)
  else none

/-- Value of a four-hexadecimal-digit escape code. -/
def hexQuad (a b c d : Char) : Option Nat :=
  match hexDigitVal a, hexDigitVal b, hexDigitVal c, hexDigitVal d with
  | some va, some vb, some vc, some vd => some (((va * 16 + vb) * 16 + vc) * 16 + vd)
  | _, _, _, _ => none

/-- The single-character JSON string escapes. -/
def simpleEscape (c : Char) : Option Char :=
  if c = '"' then some '"'
  else if c = '\\' then some '\\'
  else if c = '/' then some '/'
  else if c = 'b' then some (Char.ofNat 8)
  else if c = 'f' then some (Char.ofNat 12)
  else if c = 'n' then some '\n'
  else if c = 'r' then some '\r'
  else if c = 't' then some '\t'
  else none

/-- Body of a JSON string after the opening quote, accumulating decoded
characters in reverse.  Surrogate-pair escapes are combined into one scalar;
a code that is no valid scalar value falls back through Char.ofNat to NUL,
a boundary of modelling UTF-16 JavaScript strings by Unicode scalars. -/
def jstringAux (acc : List Char) : List Char → Option (String × List Char)
  | [] => none
  | '"' :: cs => some (String.mk acc.reverse, cs)
  | '\\' :: 'u' :: a :: b :: c :: d :: '\\' :: 'u' :: e :: f :: g :: h :: cs =>
    (match hexQuad a b c d with
     | none => none
     | some hi =>
       if 55296 ≤ hi && hi < 56320 then
         match hexQuad e f g h with
         | some lo =>
           if 56320 ≤ lo && lo < 57344 then
             jstringAux (Char.ofNat (65536 + (hi - 55296) * 1024 + (lo - 56320)) :: acc) cs
           else jstringAux (Char.ofNat hi :: acc) ('\\' :: 'u' :: e :: f :: g :: h :: cs)
         | none => jstringAux (Char.ofNat hi :: acc) ('\\' :: 'u' :: e :: f :: g :: h :: cs)
       else jstringAux (Char.ofNat hi :: acc) ('\\' :: 'u' :: e :: f :: g :: h :: cs))
  | '\\' :: 'u' :: a :: b :: c :: d :: cs =>
    (match hexQuad a b c d with
     | none => none
     | some hi => jstringAux (Char.ofNat hi :: acc) cs)
  | '\\' :: e :: cs =>
    (match simpleEscape e with
     | some ch => jstringAux (ch :: acc) cs
     | none => none)
  | c :: cs => if c.toNat < 32 then none else jstringAux (c :: acc) cs
  termination_by l => l.length
  decreasing_by all_goals simp_arith

/-- Exponent portion of a JSON number lexeme. -/
def jnumberExp (lex : List Char) (cs : List Char) : Option (String × List Char) :=
  match cs with
  | 'e' :: t => jnumberExpSign lex 'e' t
  | 'E' :: t => jnumberExpSign lex 'E' t
  | _ => some (String.mk lex, cs)
where
  jnumberExpSign (lex : List Char) (e : Char) (t : List Char) :
      Option (String × List Char) :=
    let p := match t with
      | '+' :: u => (['+'], u)
      | '-' :: u => (['-'], u)
      | _ => (([] : List Char), t)
    match digitSpan p.2 with
    | ([], _) => none
    | (ds, r) => some (String.mk (lex ++ e :: p.1 ++ ds), r)

/-- Fractional portion of a JSON number lexeme. -/
def jnumberFrac (lex : List Char) (cs : List Char) : Option (String × List Char) :=
  match cs with
  | '.' :: t =>
    (match digitSpan t with
     | ([], _) => none
     | (ds, r) => jnumberExp (lex ++ '.' :: ds) r)
  | _ => jnumberExp lex cs

/-- A JSON number lexeme starting at the head of the input: optional minus
sign, an integer part with no superfluous leading zero, then optional
fraction and exponent. -/
def jnumber (cs : List Char) : Option (String × List Char) :=
  let p := match cs with
    | '-' :: t => (['-'], t)
    | _ => (([] : List Char), cs)
  match p.2 with
  | '0' :: t =>
    (match t with
     | d :: _ => if d.isDigit then none else jnumberFrac (p.1 ++ ['0']) t
     | [] => jnumberFrac (p.1 ++ ['0']) t)
  | c :: t =>
    if c.isDigit then
      let q := digitSpan t
      jnumberFrac (p.1 ++ c :: q.1) q.2
    else none
  | [] => none

mutual

/-- Parse one JSON value; fuel bounds the recursion and is chosen large
enough for the whole input at the top-level entry point. -/
def jvalue : Nat → List Char → Option (Json × List Char)
  | 0, _ => none
  | Nat.succ f, cs =>
    match dropWs cs with
    | [] => none
    | c :: rest =>
      if c = lbrace then jobject f rest
      else if c = '[' then jarray f rest
      else if c = '"' then
        match jstringAux [] rest with
        | some (s, r) => some (Json.str s, r)
        | none => none
      else if c = 't' then
        match rest with
        | 'r' :: 'u' :: 'e' :: r => some (Json.boolean true, r)
        | _ => none
      else if c = 'f' then
        match rest with
        | 'a' :: 'l' :: 's' :: 'e' :: r => some (Json.boolean false, r)
        | _ => none
      else if c = 'n' then
        match rest with
        | 'u' :: 'l' :: 'l' :: r => some (Json.null, r)
        | _ => none
      else if c = '-' || c.isDigit then
        match jnumber (c :: rest) with
        | some (lex, r) => some (Json.number lex, r)
        | none => none
      else none

/-- Parse the rest of a JSON array, just after the opening bracket. -/
def jarray : Nat → List Char → Option (Json × List Char)
  | 0, _ => none
  | Nat.succ f, cs =>
    match dropWs cs with
    | ']' :: r => some (Json.arr [], r)
    | cs2 => jitems f cs2 []

/-- Parse the comma-separated items of a non-empty JSON array. -/
def jitems : Nat → List Char → List Json → Option (Json × List Char)
  | 0, _, _ => none
  | Nat.succ f, cs, acc =>
    match jvalue f cs with
    | some (v, r) =>
      (match dropWs r with
       | ',' :: r2 => jitems f r2 (acc ++ [v])
       | ']' :: r2 => some (Json.arr (acc ++ [v]), r2)
       | _ => none)
    | none => none

/-- Parse the rest of a JSON object, just after the opening bracket. -/
def jobject : Nat → List Char → Option (Json × List Char)
  | 0, _ => none
  | Nat.succ f, cs =>
    match dropWs cs with
    | [] => none
    | c :: r => if c = rbrace then some (Json.obj [], r) else jmembers f (c :: r) []

/-- Parse the comma-separated members of a non-empty JSON object. -/
def jmembers : Nat → List Char → List (String × Json) → Option (Json × List Char)
  | 0, _, _ => none
  | Nat.succ f, cs, acc =>
    match dropWs cs with
    | '"' :: r =>
      (match jstringAux [] r with
       | some (key, r2) =>
         (match dropWs r2 with
          | ':' :: r3 =>
            (match jvalue f r3 with
             | some (v, r4) =>
               (match dropWs r4 with
                | ',' :: r5 => jmembers f r5 (acc ++ [(key, v)])
                | c :: r5 =>
                  if c = rbrace then some (Json.obj (acc ++ [(key, v)]), r5) else none
                | [] => none)
             | none => none)
          | _ => none)
       | none => none)
    | _ => none

end

/-- The embedding of JSON.parse: parse one value surrounded by optional
whitespace, failing on trailing garbage, exactly as the JavaScript runtime
does.  Fuel four-per-character plus slack covers any nesting the input can
express, since every recursive step first consumes input characters. -/
def Json.parse (s : String) : Option Json :=
  match jvalue (4 * s.length + 8) s.data with
  | some (j, rest) =>
    (match dropWs rest with
     | [] => some j
     | _ => none)
  | none => none

/-- Whether a parsed JSON value is an object carrying a member with the
given key. -/
def jsonHasField (j : Json) (f : String) : Bool :=
  match j with
  | .obj fields => fields.any (fun kv => kv.1 == f)
  | _ => false

/-- The Tone enumeration of the base variant (src/types.ts, first document). -/
inductive Tone where
  | professional | creative | casual | witty | emotional
deriving DecidableEq

/-- The string value of a base-variant tone, as interpolated into the prompt. -/
def toneName : Tone → String
  | .professional => "Professional"
  | .creative => "Creative"
  | .casual => "Casual"
  | .witty => "Witty"
  | .emotional => "Emotional"

/-- The extended Tone enumeration of the history-enabled variant
(src/types.ts, second document). -/
inductive ToneEx where
  | professional | creative | casual | witty | emotional
  | horror | thriller | mystery | sciFi | dramatic | cinematic
deriving DecidableEq

/-- The string value of an extended-variant tone. -/
def toneExName : ToneEx → String
  | .professional => "Professional"
  | .creative => "Creative"
  | .casual => "Casual"
  | .witty => "Witty"
  | .emotional => "Emotional"
  | .horror => "Horror"
  | .thriller => "Thriller"
  | .mystery => "Mystery"
  | .sciFi => "Sci-Fi"
  | .dramatic => "Dramatic"
  | .cinematic => "Cinematic"

/-- An attachment payload as passed to generateContent: base64 data plus a
declared MIME type, mirroring the TypeScript shape of both the mediaFile
and the audioInput arguments. -/
structure MediaBlob where
  data : String
  mimeType : String
deriving DecidableEq

/-- One part of the outbound request: a text part or an inline binary part. -/
inductive Part where
  | text (s : String)
  | inlineData (data : String) (mimeType : String)
deriving DecidableEq

/-- The contextual hint pushed after the recorded-audio inline part in the
base variant (src/services/geminiService.ts). -/
def audioHintV1 : String :=
  "Audio Context: Please listen to this audio and use it as the source material."

/-- The contextual hint pushed after an uploaded audio file in the
duration-enabled variant (src/unnamed/part_001). -/
def audioFileHint : String :=
  "Context: The attached media is an audio file. Listen to the speech/sound carefully and use it as the primary source material."

/-- The contextual hint pushed after an uploaded image file in the
duration-enabled variant. -/
def imageFileHint : String := "Context: Analyze this image visually."

/-- The contextual hint pushed after an uploaded video file in the
duration-enabled variant. -/
def videoFileHint : String := "Context: Analyze this video visually and audibly."

/-- The contextual hint pushed after the recorded-audio inline part in the
duration-enabled variant. -/
def audioHintV2 : String :=
  "Audio Context: Please listen to this recorded audio and use it as the source material."

/-- Hint parts pushed after the uploaded media file in the duration-enabled
variant, keyed on the prefix of its declared MIME type; MIME types of no
known category get no hint. -/
def mimeHint (mime : String) : List Part :=
  if mime.startsWith "audio/" then [Part.text audioFileHint]
  else if mime.startsWith "image/" then [Part.text imageFileHint]
  else if mime.startsWith "video/" then [Part.text videoFileHint]
  else []

/-- The promptText of generateContent of the base variant
(src/services/geminiService.ts lines 30-31): tone instruction, with the
topic appended when the text is non-empty (truthy). -/
def promptTextV1 (textInput : String) (tone : Tone) : String :=
  let promptText := "Generate content with a " ++ toneName tone ++ " tone."
  if textInput = "" then promptText else promptText ++ "\nTopic/Context: " ++ textInput

/-- The same request-part construction, with the prompt factored out. -/
def requestPartsV1 (textInput : String) (mediaFile audioInput : Option MediaBlob)
    (tone : Tone) : List Part :=
  let parts : List Part := [Part.text (promptTextV1 textInput tone)]
  let parts :=
    match mediaFile with
    | some m => parts ++ [Part.inlineData m.data m.mimeType]
    | none => parts
  let parts :=
    match audioInput with
    | some a => parts ++ [Part.inlineData a.data a.mimeType, Part.text audioHintV1]
    | none => parts
  parts

/-- The promptText of generateContent of the duration-enabled variant
(src/unnamed/part_001 lines 46-49): tone instruction and target duration,
with the topic appended when the text is non-empty (truthy). -/
def promptTextV2 (textInput : String) (tone : ToneEx) (duration : String) : String :=
  let promptText := "Generate content with a " ++ toneExName tone ++ " tone." ++
    "\nTarget Video Script Duration: " ++ duration
  if textInput = "" then promptText else promptText ++ "\nTopic/Context: " ++ textInput

/-- The same request-part construction, with the prompt factored out. -/
def requestPartsV2 (textInput : String) (mediaFile audioInput : Option MediaBlob)
    (tone : ToneEx) (duration : String) : List Part :=
  let parts : List Part := [Part.text (promptTextV2 textInput tone duration)]
  let parts :=
    match mediaFile with
    | some m => parts ++ [Part.inlineData m.data m.mimeType] ++ mimeHint m.mimeType
    | none => parts
  let parts :=
    match audioInput with
    | some a => parts ++ [Part.inlineData a.data a.mimeType, Part.text audioHintV2]
    | none => parts
  parts

/-- Outcome of the vendor generation call: the call itself may throw, or it
returns a response whose text field may be absent. -/
inductive GenOutcome where
  | callError
  | response (text : Option String)

/-- The error conditions generateContent can end in. -/
inductive GenError where
  | vendorError
  | noText
  | invalidJson
  | apiKeyMissing
deriving DecidableEq

/-- Response handling shared verbatim by both generateContent variants
(src/services/geminiService.ts lines 89-97, src/unnamed/part_001 lines
118-126): rethrow a call error, throw when the response text is absent or
empty (falsy), otherwise return JSON.parse of the text, which throws only
on malformed JSON and performs no schema-shape validation. -/
def genResult (o : GenOutcome) : Except GenError Json :=
  match o with
  | .callError => .error .vendorError
  | .response none => .error .noText
  | .response (some t) =>
    if t = "" then .error .noText
    else
      match Json.parse t with
      | some j => .ok j
      | none => .error .invalidJson

/-- One generateContent invocation: the request it sent (none when it threw
before building one) and its result. -/
structure GenCall where
  request : Option (List Part)
  result : Except GenError Json

/-- generateContent of the base variant: builds the parts, performs the
call, and handles the response; the module-level client performs no API-key
check. -/
def generateContentV1 (textInput : String) (mediaFile audioInput : Option MediaBlob)
    (tone : Tone) (outcome : GenOutcome) : GenCall :=
  ⟨some (requestPartsV1 textInput mediaFile audioInput tone), genResult outcome⟩

/-- The lazily-initialized client check of src/unnamed/part_001 lines 22-28:
the key is rejected when absent, empty (falsy) or the literal string
"undefined". -/
def apiKeyMissing (apiKey : Option String) : Bool :=
  match apiKey with
  | none => true
  | some k => k == "" || k == "undefined"

/-- generateContent of the duration-enabled variant: getAiClient runs first
and throws on a missing key before any request is built; otherwise the
behaviour mirrors the base variant with the extra duration line and media
hints. -/
def generateContentV2 (apiKey : Option String) (textInput : String)
    (mediaFile audioInput : Option MediaBlob) (tone : ToneEx) (duration : String)
    (outcome : GenOutcome) : GenCall :=
  if apiKeyMissing apiKey then ⟨none, .error .apiKeyMissing⟩
  else ⟨some (requestPartsV2 textInput mediaFile audioInput tone duration), genResult outcome⟩

/-- Outcome of the vendor text-to-speech call. -/
inductive SpeechOutcome where
  | callError
  | response (audioData : Option String)

/-- The error conditions generateSpeech can end in. -/
inductive SpeechError where
  | vendorError
  | noAudio
  | apiKeyMissing
deriving DecidableEq

/-- Response handling of generateSpeech: rethrow a call error, throw when
the first inline audio payload is absent or empty, else return it. -/
def speechResult (o : SpeechOutcome) : Except SpeechError String :=
  match o with
  | .callError => .error .vendorError
  | .response none => .error .noAudio
  | .response (some d) => if d = "" then .error .noAudio else .ok d

/-- One generateSpeech invocation: the text it sent (none when it threw
before sending) and its result. -/
structure SpeechCall where
  requested : Option String
  result : Except SpeechError String

/-- generateSpeech of the base variant (no key check). -/
def generateSpeechV1 (text : String) (outcome : SpeechOutcome) : SpeechCall :=
  ⟨some text, speechResult outcome⟩

/-- generateSpeech of the duration-enabled variant: getAiClient runs first
(src/unnamed/part_001 lines 129-131). -/
def generateSpeechV2 (apiKey : Option String) (text : String)
    (outcome : SpeechOutcome) : SpeechCall :=
  if apiKeyMissing apiKey then ⟨none, .error .apiKeyMissing⟩
  else ⟨some text, speechResult outcome⟩

/-- Whether a part is an inline binary part. -/
def isInlinePart : Part → Bool
  | .inlineData _ _ => true
  | .text _ => false

/-- Number of inline binary parts in a request. -/
def countInline (l : List Part) : Nat := (l.filter isInlinePart).length

/-- The inline payloads of a request, in order. -/
def inlinePayloads (l : List Part) : List (String × String) :=
  l.filterMap fun p =>
    match p with
    | .inlineData d m => some (d, m)
    | .text _ => none

/-- Whether every inline binary part of a request is immediately followed
by a text part (the weakest reading of the claimed hint-after-attachment
shape: the follower need not even be a hint). -/
def eachInlineFollowedByText : List Part → Bool
  | [] => true
  | .text _ :: rest => eachInlineFollowedByText rest
  | .inlineData _ _ :: rest =>
    match rest with
    | .text _ :: _ => eachInlineFollowedByText rest
    | _ => false

/-- The required response-schema fields of the base variant
(src/services/geminiService.ts line 84). -/
def requiredFieldsV1 : List String :=
  ["facebookPost", "instagramCaption", "linkedinPost", "twitterPost",
   "youtubeTitle", "youtubeDescription", "videoScript", "summary"]

/-- The required response-schema fields of the duration-enabled variant
(src/unnamed/part_001 line 113). -/
def requiredFieldsV2 : List String :=
  ["facebookTitle", "facebookPost", "instagramCaption", "linkedinPost",
   "twitterPost", "youtubeTitle", "youtubeDescription", "videoScript", "summary"]

/-- A selected file: its display name, its declared MIME type (File.type)
and the base64 content that fileToGenerativePart reads out of it. -/
structure FileData where
  name : String
  fileType : String
  data : String
deriving DecidableEq

/-- A finalized recording: the blob MIME type and its base64 content. -/
structure RecordedAudio where
  blobType : String
  data : String
deriving DecidableEq

/-- The utility fileToGenerativePart: base64 data plus the file MIME type. -/
def fileToGenerativePart (f : FileData) : MediaBlob := ⟨f.data, f.fileType⟩

/-- The recorded-audio payload built inside handleGenerate, with the
audio/webm fallback for an empty blob type. -/
def recordedAudioBlob (r : RecordedAudio) : MediaBlob :=
  ⟨r.data, if r.blobType = "" then "audio/webm" else r.blobType⟩

/-- The output tab selector. -/
inductive TabId where
  | social | youtube | script
deriving DecidableEq

/-- The React state of the base UI variant (src/SrotoLipiAI.tsx). -/
structure StateV1 where
  inputText : String
  selectedFile : Option FileData
  isRecording : Bool
  recordedAudio : Option RecordedAudio
  tone : Tone
  isLoading : Bool
  result : Option Json
  isPlayingAudio : Bool
  activeTab : TabId

/-- A history entry of the history-enabled variant (src/types.ts, second
document): the data field holds whatever JSON value the generation call
returned. -/
structure HistoryItem where
  id : String
  timestamp : Nat
  preview : String
  tone : ToneEx
  data : Json

/-- The React state of the history-enabled UI variant (src/unnamed/part_000).
The audio download URL is modelled by presence only. -/
structure StateV2 where
  inputText : String
  selectedFile : Option FileData
  isRecording : Bool
  recordedAudio : Option RecordedAudio
  tone : ToneEx
  duration : String
  isLoading : Bool
  result : Option Json
  isPlayingAudio : Bool
  audioDownloadUrl : Option Unit
  activeTab : TabId
  history : List HistoryItem
  showMobileHistory : Bool

/-- Observable effects of one handleGenerate invocation: whether a vendor
request went out and which blocking alert, if any, was shown. -/
structure GenEvents where
  networkCalled : Bool
  alerted : Option String
deriving DecidableEq

/-- The notice shown when generation is requested without any input. -/
def emptyInputAlert : String :=
  "Please provide some input (Text, Image, Video, or Audio)."

/-- The failure alert of the base variant. -/
def genFailAlertV1 : String :=
  "Failed to generate content. Please check if API Key is set in .env"

/-- The failure alert of the history-enabled variant. -/
def genFailAlertV2 : String :=
  "Failed to generate content. Please check if API Key is set correctly."

/-- The input guard of handleGenerate: text empty and no file and no
recording (JavaScript falsiness of the three state values). -/
def noInputV1 (s : StateV1) : Bool :=
  s.inputText == "" && s.selectedFile.isNone && s.recordedAudio.isNone

/-- The same input guard over the history-enabled state. -/
def noInputV2 (s : StateV2) : Bool :=
  s.inputText == "" && s.selectedFile.isNone && s.recordedAudio.isNone

/-- handleGenerate of the base variant (src/SrotoLipiAI.tsx lines 105-143):
reject empty input with a notice; otherwise clear the previous result, call
generateContent, store the parsed result on success, alert on failure, and
clear the loading flag on every path. -/
def handleGenerateV1 (s : StateV1) (outcome : GenOutcome) : StateV1 × GenEvents :=
  if noInputV1 s then (s, ⟨false, some emptyInputAlert⟩)
  else
    let mediaData := s.selectedFile.map fileToGenerativePart
    let audioData := s.recordedAudio.map recordedAudioBlob
    let call := generateContentV1 s.inputText mediaData audioData s.tone outcome
    match call.result with
    | .ok j => ({ s with isLoading := false, result := some j }, ⟨call.request.isSome, none⟩)
    | .error _ =>
      ({ s with isLoading := false, result := none }, ⟨call.request.isSome, some genFailAlertV1⟩)

/-- The history preview string (src/unnamed/part_000 lines 176-177): sixty
characters of the text with an ellipsis, or a file or recording label when
the text is empty (the JavaScript or-expression on the concatenation). -/
def previewOf (inputText : String) (selectedFile : Option FileData) : String :=
  let p := String.mk (inputText.data.take 60) ++ (if 60 < inputText.length then "..." else "")
  if p = "" then
    match selectedFile with
    | some f => "File: " ++ f.name
    | none => "Audio Recording"
  else p

/-- The HistoryItem built after a successful generation, with Date.now()
passed in as the clock reading. -/
def mkHistoryItem (now : Nat) (inputText : String) (selectedFile : Option FileData)
    (tone : ToneEx) (data : Json) : HistoryItem :=
  ⟨toString now, now, previewOf inputText selectedFile, tone, data⟩

/-- handleGenerate of the history-enabled variant (src/unnamed/part_000
lines 142-195): reject empty input with a notice; otherwise reset the
audio download URL, call generateContent, and on success store the result
and prepend one HistoryItem; on failure alert; clear the loading flag on
every path.  The result of a failed call is left as it was. -/
def handleGenerateV2 (s : StateV2) (apiKey : Option String) (now : Nat)
    (outcome : GenOutcome) : StateV2 × GenEvents :=
  if noInputV2 s then (s, ⟨false, some emptyInputAlert⟩)
  else
    let mediaData := s.selectedFile.map fileToGenerativePart
    let audioData := s.recordedAudio.map recordedAudioBlob
    let call := generateContentV2 apiKey s.inputText mediaData audioData s.tone s.duration outcome
    match call.result with
    | .ok j =>
      ({ s with isLoading := false, audioDownloadUrl := none, result := some j,
                history := mkHistoryItem now s.inputText s.selectedFile s.tone j :: s.history },
       ⟨call.request.isSome, none⟩)
    | .error _ =>
      ({ s with isLoading := false, audioDownloadUrl := none },
       ⟨call.request.isSome, some genFailAlertV2⟩)

/-- deleteHistoryItem (src/unnamed/part_000 lines 204-207): filter out the
entries carrying the given id. -/
def deleteHistoryItem (history : List HistoryItem) (id : String) : List HistoryItem :=
  history.filter fun it => it.id != id

/-- Events touching the mutually exclusive pair of non-text inputs:
a file-picker change (with or without a chosen file), the recorder onstop
callback finalizing a clip, and the clear-file button of the
history-enabled variant. -/
inductive InputEvent where
  | fileChange (f : Option FileData)
  | recordingStopped (a : RecordedAudio)
  | clearFile

/-- Effect of one input event on (selectedFile, recordedAudio): selecting a
file clears the recording (src/SrotoLipiAI.tsx lines 61-66), finalizing a
recording clears the file (lines 89-94), clearing the file touches only
the file. -/
def inputStep (st : Option FileData × Option RecordedAudio) (e : InputEvent) :
    Option FileData × Option RecordedAudio :=
  match e with
  | .fileChange (some f) => (some f, none)
  | .fileChange none => st
  | .recordingStopped a => (none, some a)
  | .clearFile => (none, st.2)

/-- Fold a sequence of input events over the collector state. -/
def inputRun (st : Option FileData × Option RecordedAudio) (evs : List InputEvent) :
    Option FileData × Option RecordedAudio :=
  evs.foldl inputStep st

/-- At most one non-text input is held. -/
def inputExclusive (st : Option FileData × Option RecordedAudio) : Prop :=
  st.1 = none ∨ st.2 = none

/-- State of the text-to-speech playback logic of handleTTS, at the
granularity of its awaits: the isPlayingAudio flag, the audioSourceRef
(source nodes numbered in creation order), the set of sources currently
playing, and the number of handleTTS continuations suspended at the
speech-generation and decode awaits. -/
structure TTSState where
  isPlayingAudio : Bool
  audioSource : Option Nat
  nextId : Nat
  playing : List Nat
  pending : Nat
  hasSummary : Bool
deriving DecidableEq

/-- Events of the playback logic: a button press, the pending continuation
resuming with decoded audio (creating and starting a fresh source) or with
a failure, and a source reaching its natural end. -/
inductive TTSEvent where
  | toggle
  | resolveOk
  | resolveErr
  | ended (id : Nat)
deriving DecidableEq

/-- One step of handleTTS (src/SrotoLipiAI.tsx lines 145-186, same shape in
src/unnamed/part_000 lines 215-274).  A press with the flag set stops the
referenced source and clears flag and reference; a press with the flag
clear sets the flag and suspends a continuation; a resuming continuation
starts a fresh source without re-checking the flag; onended clears the
flag. -/
def ttsStep (s : TTSState) (e : TTSEvent) : TTSState :=
  match e with
  | .toggle =>
    if !s.hasSummary then s
    else if s.isPlayingAudio then
      match s.audioSource with
      | some id =>
        { s with isPlayingAudio := false, audioSource := none,
                 playing := s.playing.filter (fun x => x ≠ id) }
      | none => { s with isPlayingAudio := false }
    else { s with isPlayingAudio := true, pending := s.pending + 1 }
  | .resolveOk =>
    if s.pending = 0 then s
    else
      { s with pending := s.pending - 1, audioSource := some s.nextId,
               nextId := s.nextId + 1, playing := s.nextId :: s.playing }
  | .resolveErr =>
    if s.pending = 0 then s
    else { s with pending := s.pending - 1, isPlayingAudio := false }
  | .ended id =>
    if id ∈ s.playing then
      { s with playing := s.playing.filter (fun x => x ≠ id), isPlayingAudio := false }
    else s

/-- Fold a sequence of playback events. -/
def ttsRun (s : TTSState) (evs : List TTSEvent) : TTSState :=
  evs.foldl ttsStep s

/-- The initial playback state once a result with a summary exists. -/
def ttsInit : TTSState :=
  ⟨false, none, 0, [], 0, true⟩

/-- Whether a trace is sequential: every press happens while no speech
request is pending (each call settles before the next press). -/
def ttsSeqOk (s : TTSState) : List TTSEvent → Bool
  | [] => true
  | e :: evs =>
    (match e with
     | .toggle => s.pending == 0
     | _ => true) && ttsSeqOk (ttsStep s e) evs

/-- Role of a chat message in the local-model variant. -/
inductive ChatRole where
  | system | user | assistant
deriving DecidableEq

/-- Modelled from the spec: a chat message of the local-model variant,
whose code is not among the source files (only the spec section 4.7
describes it). -/
structure ChatMessage where
  role : ChatRole
  content : String
deriving DecidableEq

/-- The suffix of a list holding its last n elements. -/
def lastN (n : Nat) (l : List α) : List α := l.drop (l.length - n)

/-- Modelled from the spec: the model-facing context of one turn is one
synthesized system prompt followed by the most recent five transcript
messages inclusive of the just-appended user message; older history is
dropped from the context. -/
def chatContext (systemPrompt : ChatMessage) (transcript : List ChatMessage)
    (userMsg : ChatMessage) : List ChatMessage :=
  systemPrompt :: lastN 5 (transcript ++ [userMsg])

/-- Modelled from the spec: the streaming loop concatenates arriving tokens
onto one growing assistant message, checking the abort signal once per
received token; on trip the partial message is kept and nothing more is
appended. -/
def streamTokens (abortAt : Option Nat) : List String → Nat → String → String
  | [], _, acc => acc
  | t :: ts, i, acc =>
    match abortAt with
    | some k => if k ≤ i then acc else streamTokens abortAt ts (i + 1) (acc ++ t)
    | none => streamTokens abortAt ts (i + 1) (acc ++ t)

/-- Modelled from the spec: the final assistant message for a stream of
received tokens under an optional abort point. -/
def assistantMessage (tokens : List String) (abortAt : Option Nat) : String :=
  streamTokens abortAt tokens 0 ""

/-- Concatenation of a token list. -/
def concatTokens : List String → String
  | [] => ""
  | t :: ts => t ++ concatTokens ts

/-- The five contextual hint strings of the two generation clients. -/
def hintTexts : List String :=
  [audioHintV1, audioFileHint, imageFileHint, videoFileHint, audioHintV2]

/-- The media-file section a base-variant request carries. -/
def mediaSectionV1 : Option MediaBlob → List Part
  | some m => [Part.inlineData m.data m.mimeType]
  | none => []

/-- The media-file section a duration-enabled request carries: the inline
part immediately followed by its MIME-category hint, when one exists. -/
def mediaSectionV2 : Option MediaBlob → List Part
  | some m => Part.inlineData m.data m.mimeType :: mimeHint m.mimeType
  | none => []

/-- The recorded-audio section of a request: the inline part immediately
followed by the given hint. -/
def audioSection : Option MediaBlob → String → List Part
  | some a, hint => [Part.inlineData a.data a.mimeType, Part.text hint]
  | none, _ => []

/-- The inline payloads a request should carry: media file first, recorded
audio second. -/
def payloads (m a : Option MediaBlob) : List (String × String) :=
  (match m with
   | some x => [(x.data, x.mimeType)]
   | none => []) ++
  (match a with
   | some x => [(x.data, x.mimeType)]
   | none => [])

/-- Whether a generateContent result is one of the failure conditions. -/
def isGenError : Except GenError Json → Bool
  | .error _ => true
  | .ok _ => false

/-- Invariant of the playback machine on sequential traces: at most one
request pending; a pending request means the flag is up and nothing plays
yet; a lowered flag means nothing plays; at most one source plays, and any
playing source is the referenced one. -/
def ttsInv (s : TTSState) : Prop :=
  s.pending ≤ 1 ∧
  (s.pending = 1 → s.isPlayingAudio = true ∧ s.playing = []) ∧
  (s.isPlayingAudio = false → s.playing = []) ∧
  s.playing.length ≤ 1 ∧
  (∀ id ∈ s.playing, s.audioSource = some id)

/-! ## Helper lemmas -/

/-- Appending on the right keeps the head character. -/
theorem string_append_head (s t : String) (c : Char) (hs : s.data.head? = some c) :
    (s ++ t).data.head? = some c := by
  obtain ⟨sl⟩ := s
  obtain ⟨tl⟩ := t
  cases sl with
  | nil => exact Option.noConfusion hs
  | cons a l => exact hs

/-- The empty string is a left identity of append. -/
theorem empty_string_append (s : String) : "" ++ s = s := by
  obtain ⟨l⟩ := s
  rfl

/-- The empty string is a right identity of append. -/
theorem string_append_empty (s : String) : s ++ "" = s := by
  obtain ⟨l⟩ := s
  show String.mk (l ++ []) = String.mk l
  simp

/-- One input event keeps the collector exclusive. -/
theorem inputStep_exclusive (st : Option FileData × Option RecordedAudio)
    (e : InputEvent) (h : inputExclusive st) : inputExclusive (inputStep st e) := by
  cases e with
  | fileChange f =>
    cases f with
    | some f => simp [inputStep, inputExclusive]
    | none => simpa [inputStep] using h
  | recordingStopped a => simp [inputStep, inputExclusive]
  | clearFile => simp [inputStep, inputExclusive]

/-- A whole event sequence keeps the collector exclusive. -/
theorem inputRun_exclusive (evs : List InputEvent) :
    ∀ st, inputExclusive st → inputExclusive (inputRun st evs) := by
  induction evs with
  | nil => intro st h; exact h
  | cons e evs ih =>
    intro st h
    exact ih (inputStep st e) (inputStep_exclusive st e h)

/-- Streaming with an abort point yields exactly the concatenation of the
tokens received before it. -/
theorem streamTokens_take (k : Nat) (ts : List String) :
    ∀ (i : Nat) (acc : String),
      streamTokens (some k) ts i acc = acc ++ concatTokens (ts.take (k - i)) := by
  induction ts with
  | nil => intro i acc; simp [streamTokens, concatTokens, string_append_empty]
  | cons t ts ih =>
    intro i acc
    by_cases hk : k ≤ i
    · have h0 : k - i = 0 := Nat.sub_eq_zero_of_le hk
      simp [streamTokens, hk, h0, concatTokens, string_append_empty]
    · have h2 : k - i = (k - (i + 1)) + 1 := by omega
      simp only [streamTokens, if_neg hk]
      rw [ih (i + 1) (acc ++ t), h2]
      simp [concatTokens, String.append_assoc]

/-- Streaming with no abort yields the concatenation of all tokens. -/
theorem streamTokens_all (ts : List String) :
    ∀ acc, streamTokens none ts 0 acc = acc ++ concatTokens ts := by
  suffices h : ∀ (i : Nat) (acc : String), streamTokens none ts i acc = acc ++ concatTokens ts by
    intro acc; exact h 0 acc
  induction ts with
  | nil => intro i acc; simp [streamTokens, concatTokens, string_append_empty]
  | cons t ts ih =>
    intro i acc
    simp only [streamTokens]
    rw [ih (i + 1) (acc ++ t)]
    simp [concatTokens, String.append_assoc]

/-- Deleting an id that no entry carries changes nothing. -/
theorem deleteHistory_not_mem (l : List HistoryItem) (id : String)
    (h : id ∉ l.map HistoryItem.id) : deleteHistoryItem l id = l := by
  induction l with
  | nil => rfl
  | cons it l ih =>
    simp only [List.map_cons, List.mem_cons] at h
    push_neg at h
    simp only [deleteHistoryItem, List.filter_cons]
    have hne : (it.id != id) = true := by
      simp [bne_iff_ne]
      exact fun he => h.1 (he ▸ rfl)
    rw [if_pos hne]
    have := ih h.2
    simp only [deleteHistoryItem] at this
    rw [this]

/-- After a deletion the id occurs in no remaining entry. -/
theorem deleteHistory_id_gone (l : List HistoryItem) (id : String) :
    id ∉ (deleteHistoryItem l id).map HistoryItem.id := by
  simp only [deleteHistoryItem, List.mem_map]
  rintro ⟨it, hmem, hid⟩
  have := List.of_mem_filter hmem
  simp [bne_iff_ne] at this
  exact this hid

/-- No playback event touches the hasSummary field. -/
theorem ttsStep_hasSummary (s : TTSState) (e : TTSEvent) :
    (ttsStep s e).hasSummary = s.hasSummary := by
  cases e with
  | toggle =>
    simp only [ttsStep]
    split
    · rfl
    · split
      · split <;> rfl
      · rfl
  | resolveOk => simp only [ttsStep]; split <;> rfl
  | resolveErr => simp only [ttsStep]; split <;> rfl
  | ended id => simp only [ttsStep]; split <;> rfl

/-- No playback trace touches the hasSummary field. -/
theorem ttsRun_hasSummary (evs : List TTSEvent) :
    ∀ s, (ttsRun s evs).hasSummary = s.hasSummary := by
  induction evs with
  | nil => intro s; rfl
  | cons e evs ih =>
    intro s
    show (ttsRun (ttsStep s e) evs).hasSummary = s.hasSummary
    rw [ih (ttsStep s e), ttsStep_hasSummary]

/-- One step preserves the playback invariant, provided a press only
happens while no request is pending. -/
theorem ttsStep_inv (s : TTSState) (e : TTSEvent) (hinv : ttsInv s)
    (htog : e = TTSEvent.toggle → s.pending = 0) : ttsInv (ttsStep s e) := by
  obtain ⟨flag, src, nid, pl, pend, hsm⟩ := s
  obtain ⟨hp1, hp2, hp3, hp4, hp5⟩ := hinv
  simp only at hp1 hp2 hp3 hp4 hp5 htog
  cases e with
  | toggle =>
    have hpend : pend = 0 := htog rfl
    subst hpend
    cases hsm with
    | false => exact ⟨hp1, hp2, hp3, hp4, hp5⟩
    | true =>
      cases flag with
      | true =>
        cases src with
        | some id =>
          have hfil : pl.filter (fun x => x ≠ id) = [] := by
            rw [List.filter_eq_nil_iff]
            intro x hx
            have hsx := hp5 x hx
            have : x = id := (Option.some_inj.mp hsx).symm
            simp [this]
          simp only [ttsStep, ttsInv, hfil]
          exact ⟨hp1, fun h => absurd h (by simp), fun _ => rfl, by simp,
            fun x hx => by simp at hx⟩
        | none =>
          have hempty : pl = [] := by
            cases hpl : pl with
            | nil => rfl
            | cons y l =>
              have := hp5 y (by rw [hpl]; exact List.mem_cons_self y l)
              exact Option.noConfusion this
          simp only [ttsStep, ttsInv]
          exact ⟨hp1, fun h => absurd h (by simp), fun _ => hempty,
            by rw [hempty]; simp, fun x hx => by rw [hempty] at hx; simp at hx⟩
      | false =>
        have hempty : pl = [] := hp3 rfl
        simp only [ttsStep, ttsInv]
        exact ⟨by simp, fun _ => ⟨rfl, hempty⟩, fun h => by simp at h,
          by rw [hempty]; simp, fun x hx => by rw [hempty] at hx; simp at hx⟩
  | resolveOk =>
    by_cases hpend : pend = 0
    · simp only [ttsStep, ttsInv, if_pos hpend]
      exact ⟨hp1, hp2, hp3, hp4, hp5⟩
    · have h1 : pend = 1 := by omega
      subst h1
      obtain ⟨hflag, hempt⟩ := hp2 rfl
      subst hflag
      subst hempt
      simp only [ttsStep, ttsInv, if_neg hpend]
      exact ⟨by simp, fun h => by simp at h, fun h => by simp at h,
        by simp, fun x hx => by simp at hx; simp [hx]⟩
  | resolveErr =>
    by_cases hpend : pend = 0
    · simp only [ttsStep, ttsInv, if_pos hpend]
      exact ⟨hp1, hp2, hp3, hp4, hp5⟩
    · have h1 : pend = 1 := by omega
      subst h1
      obtain ⟨hflag, hempt⟩ := hp2 rfl
      subst hempt
      simp only [ttsStep, ttsInv, if_neg hpend]
      exact ⟨by simp, fun h => by simp at h, fun _ => by trivial, by simp,
        fun x hx => by simp at hx⟩
  | ended id =>
    by_cases hmem : id ∈ pl
    · have hnp : pend ≠ 1 := by
        intro h
        obtain ⟨_, he⟩ := hp2 h
        rw [he] at hmem
        simp at hmem
      have hone : pl = [id] := by
        cases hpl : pl with
        | nil => rw [hpl] at hmem; simp at hmem
        | cons y l =>
          rw [hpl] at hp4 hmem
          cases l with
          | nil =>
            simp at hmem
            rw [hmem]
          | cons z l2 => simp at hp4
      have hfil : pl.filter (fun x => x ≠ id) = [] := by
        rw [hone]
        simp
      simp only [ttsStep, ttsInv, if_pos hmem, hfil]
      exact ⟨hp1, fun h => absurd h hnp, fun _ => by trivial, by simp,
        fun x hx => by simp at hx⟩
    · simp only [ttsStep, ttsInv, if_neg hmem]
      exact ⟨hp1, hp2, hp3, hp4, hp5⟩

/-- A sequential trace preserves the playback invariant. -/
theorem ttsRun_inv (evs : List TTSEvent) :
    ∀ s, ttsInv s → ttsSeqOk s evs = true → ttsInv (ttsRun s evs) := by
  induction evs with
  | nil => intro s h _; exact h
  | cons e evs ih =>
    intro s h hseq
    simp only [ttsSeqOk, Bool.and_eq_true] at hseq
    obtain ⟨h1, h2⟩ := hseq
    refine ih (ttsStep s e) (ttsStep_inv s e h ?_) h2
    intro he
    subst he
    simpa using h1

/-- The initial playback state satisfies the invariant. -/
theorem ttsInit_inv : ttsInv ttsInit := by
  refine ⟨by simp [ttsInit], fun h => by simp [ttsInit] at h, fun _ => rfl, by simp [ttsInit],
    fun x hx => by simp [ttsInit] at hx⟩

/-- Every part a MIME hint contributes is a text part. -/
theorem mimeHint_no_inline (mime : String) (x : Part) (hx : x ∈ mimeHint mime) :
    ∃ s, x = Part.text s := by
  unfold mimeHint at hx
  split at hx
  · simp at hx
    exact ⟨audioFileHint, hx⟩
  · split at hx
    · simp at hx
      exact ⟨imageFileHint, hx⟩
    · split at hx
      · simp at hx
        exact ⟨videoFileHint, hx⟩
      · simp at hx

/-- A MIME hint contributes no inline payload. -/
theorem inlinePayloads_mimeHint (mime : String) : inlinePayloads (mimeHint mime) = [] := by
  unfold mimeHint
  split
  · rfl
  · split
    · rfl
    · split <;> rfl

/-- Inline payloads distribute over list append. -/
theorem inlinePayloads_append (l1 l2 : List Part) :
    inlinePayloads (l1 ++ l2) = inlinePayloads l1 ++ inlinePayloads l2 := by
  simp [inlinePayloads]

/-- A text part contributes no inline payload. -/
theorem inlinePayloads_cons_text (s : String) (l : List Part) :
    inlinePayloads (Part.text s :: l) = inlinePayloads l := by
  simp [inlinePayloads]

/-- An inline part contributes its payload. -/
theorem inlinePayloads_cons_inline (d mm : String) (l : List Part) :
    inlinePayloads (Part.inlineData d mm :: l) = (d, mm) :: inlinePayloads l := by
  simp [inlinePayloads]

/-! ## Claim theorems -/

/-- C2: in every UI state with empty text, no selected file and no recorded
audio, handleGenerate of either variant performs no network call, surfaces
the provide-input notice, and leaves the whole state unchanged. -/
theorem C2_empty_input_no_call (s1 : StateV1) (s2 : StateV2) (o1 o2 : GenOutcome)
    (apiKey : Option String) (now : Nat)
    (h1 : s1.inputText = "") (h2 : s1.selectedFile = none) (h3 : s1.recordedAudio = none)
    (h4 : s2.inputText = "") (h5 : s2.selectedFile = none) (h6 : s2.recordedAudio = none) :
    handleGenerateV1 s1 o1 = (s1, ⟨false, some emptyInputAlert⟩) ∧
    handleGenerateV2 s2 apiKey now o2 = (s2, ⟨false, some emptyInputAlert⟩) := by
  have g1 : noInputV1 s1 = true := by simp [noInputV1, h1, h2, h3]
  have g2 : noInputV2 s2 = true := by simp [noInputV2, h4, h5, h6]
  constructor
  · simp [handleGenerateV1, g1]
  · simp [handleGenerateV2, g2]

/-- C2 witness: a concrete empty-input state of each variant. -/
theorem C2_empty_input_no_call_witness :
    handleGenerateV1 ⟨"", none, false, none, .creative, false, none, false, .social⟩
        GenOutcome.callError =
      (⟨"", none, false, none, .creative, false, none, false, .social⟩,
       ⟨false, some emptyInputAlert⟩) ∧
    handleGenerateV2
        ⟨"", none, false, none, .creative, "Short (< 2 min)", false, none, false, none,
         .social, [], false⟩ (some "k") 7 GenOutcome.callError =
      (⟨"", none, false, none, .creative, "Short (< 2 min)", false, none, false, none,
        .social, [], false⟩, ⟨false, some emptyInputAlert⟩) :=
  C2_empty_input_no_call _ _ _ _ _ _ rfl rfl rfl rfl rfl rfl

/-- C3: for every non-empty text and every tone, a call with both
attachments null builds a request with exactly one part, the instruction
text carrying tone and topic, hence zero inline parts and none of the
contextual hint texts, in both client variants. -/
theorem C3_text_only_request (t : String) (tone1 : Tone) (tone2 : ToneEx)
    (dur : String) (h : t ≠ "") :
    requestPartsV1 t none none tone1 =
      [Part.text ("Generate content with a " ++ toneName tone1 ++ " tone." ++
        "\nTopic/Context: " ++ t)] ∧
    countInline (requestPartsV1 t none none tone1) = 0 ∧
    requestPartsV2 t none none tone2 dur =
      [Part.text ("Generate content with a " ++ toneExName tone2 ++ " tone." ++
        "\nTarget Video Script Duration: " ++ dur ++ "\nTopic/Context: " ++ t)] ∧
    countInline (requestPartsV2 t none none tone2 dur) = 0 ∧
    (∀ hh ∈ hintTexts, Part.text hh ∉ requestPartsV1 t none none tone1) ∧
    (∀ hh ∈ hintTexts, Part.text hh ∉ requestPartsV2 t none none tone2 dur) := by
  have e1 : requestPartsV1 t none none tone1 =
      [Part.text ("Generate content with a " ++ toneName tone1 ++ " tone." ++
        "\nTopic/Context: " ++ t)] := by
    simp [requestPartsV1, promptTextV1, h]
  have e2 : requestPartsV2 t none none tone2 dur =
      [Part.text ("Generate content with a " ++ toneExName tone2 ++ " tone." ++
        "\nTarget Video Script Duration: " ++ dur ++ "\nTopic/Context: " ++ t)] := by
    simp [requestPartsV2, promptTextV2, h]
  have hgA : ("Generate content with a " ++ toneName tone1).data.head? = some 'G' :=
    string_append_head _ _ _ rfl
  have hgB := string_append_head _ " tone." _ hgA
  have hgC := string_append_head _ "\nTopic/Context: " _ hgB
  have hg1 := string_append_head _ t _ hgC
  have hhA : ("Generate content with a " ++ toneExName tone2).data.head? = some 'G' :=
    string_append_head _ _ _ rfl
  have hhB := string_append_head _ " tone." _ hhA
  have hhC := string_append_head _ "\nTarget Video Script Duration: " _ hhB
  have hhD := string_append_head _ dur _ hhC
  have hhE := string_append_head _ "\nTopic/Context: " _ hhD
  have hg2 := string_append_head _ t _ hhE
  refine ⟨e1, ?_, e2, ?_, ?_, ?_⟩
  · rw [e1]; rfl
  · rw [e2]; rfl
  · intro hh hmem hcon
    rw [e1] at hcon
    simp only [hintTexts, List.mem_cons, List.not_mem_nil, or_false] at hmem
    simp only [List.mem_singleton] at hcon
    injection hcon with hEq
    rcases hmem with rfl | rfl | rfl | rfl | rfl <;> rw [← hEq] at hg1 <;>
      exact absurd hg1 (by decide)
  · intro hh hmem hcon
    rw [e2] at hcon
    simp only [hintTexts, List.mem_cons, List.not_mem_nil, or_false] at hmem
    simp only [List.mem_singleton] at hcon
    injection hcon with hEq
    rcases hmem with rfl | rfl | rfl | rfl | rfl <;> rw [← hEq] at hg2 <;>
      exact absurd hg2 (by decide)

/-- C3 witness: the example topic of the spec with the Creative tone. -/
theorem C3_text_only_request_witness :
    requestPartsV1 "Launch of a new tea brand" none none .creative =
      [Part.text ("Generate content with a " ++ toneName .creative ++ " tone." ++
        "\nTopic/Context: " ++ "Launch of a new tea brand")] ∧
    countInline (requestPartsV1 "Launch of a new tea brand" none none .creative) = 0 ∧
    requestPartsV2 "Launch of a new tea brand" none none .creative "Short (< 2 min)" =
      [Part.text ("Generate content with a " ++ toneExName .creative ++ " tone." ++
        "\nTarget Video Script Duration: " ++ "Short (< 2 min)" ++
        "\nTopic/Context: " ++ "Launch of a new tea brand")] ∧
    countInline
      (requestPartsV2 "Launch of a new tea brand" none none .creative "Short (< 2 min)") = 0 ∧
    (∀ hh ∈ hintTexts,
      Part.text hh ∉ requestPartsV1 "Launch of a new tea brand" none none .creative) ∧
    (∀ hh ∈ hintTexts,
      Part.text hh ∉
        requestPartsV2 "Launch of a new tea brand" none none .creative "Short (< 2 min)") :=
  C3_text_only_request "Launch of a new tea brand" .creative .creative "Short (< 2 min)"
    (by decide)

/-- C5: from the initial collector state, every interleaving of
file-selection, recording-finalization and file-clearing events keeps at
most one of the selected file and the recorded audio non-null; selecting a
file clears the recording and finalizing a recording clears the file. -/
theorem C5_input_mutual_exclusion (evs : List InputEvent) :
    inputExclusive (inputRun (none, none) evs) ∧
    (∀ st f, inputStep st (.fileChange (some f)) = (some f, none)) ∧
    (∀ st a, inputStep st (.recordingStopped a) = (none, some a)) :=
  ⟨inputRun_exclusive evs (none, none) (Or.inl rfl), fun _ _ => rfl, fun _ _ => rfl⟩

/-- C9: in the spec-modelled local chat loop, the model-facing context of a
turn holds at most six messages, and streaming with an abort at token k
keeps exactly the first k tokens of the assistant message, appending
nothing further; with no abort all tokens are kept. -/
theorem C9_context_window_and_abort (sys userMsg : ChatMessage)
    (transcript : List ChatMessage) (tokens : List String) (k : Nat) :
    (chatContext sys transcript userMsg).length ≤ 6 ∧
    assistantMessage tokens (some k) = concatTokens (tokens.take k) ∧
    assistantMessage tokens none = concatTokens tokens := by
  refine ⟨?_, ?_, ?_⟩
  · simp only [chatContext, lastN, List.length_cons, List.length_drop]
    omega
  · have h := streamTokens_take k tokens 0 ""
    rw [assistantMessage, h, Nat.sub_zero, empty_string_append]
  · have h := streamTokens_all tokens ""
    rw [assistantMessage, h, empty_string_append]

/-- C10: in the lazily-initialized variant, a missing, empty or literal
undefined API key makes both generateContent and generateSpeech fail with
the key-missing error before any request is built. -/
theorem C10_missing_key_fails_early (apiKey : Option String) (t : String)
    (m a : Option MediaBlob) (tone : ToneEx) (dur : String) (o : GenOutcome)
    (so : SpeechOutcome) (h : apiKeyMissing apiKey = true) :
    generateContentV2 apiKey t m a tone dur o = ⟨none, .error .apiKeyMissing⟩ ∧
    generateSpeechV2 apiKey t so = ⟨none, .error .apiKeyMissing⟩ := by
  constructor
  · simp [generateContentV2, h]
  · simp [generateSpeechV2, h]

/-- C10 witness: the literal string undefined as the configured key. -/
theorem C10_missing_key_fails_early_witness :
    apiKeyMissing (some "undefined") = true ∧
    generateContentV2 (some "undefined") "t" none none .creative "Short (< 2 min)"
        .callError = ⟨none, .error .apiKeyMissing⟩ ∧
    generateSpeechV2 (some "undefined") "hello" .callError =
      ⟨none, .error .apiKeyMissing⟩ :=
  ⟨rfl,
   (C10_missing_key_fails_early (some "undefined") "t" none none .creative
     "Short (< 2 min)" .callError .callError rfl).1,
   (C10_missing_key_fails_early (some "undefined") "t" none none .creative
     "Short (< 2 min)" .callError .callError rfl).2⟩

/-- C6: a successful generation in the history-enabled variant prepends
exactly one new item at index zero leaving the tail untouched; deleting an
id that identifies exactly one entry removes that entry and preserves the
order of the rest; deleting twice equals deleting once. -/
theorem C6_history_prepend_and_delete (s : StateV2) (apiKey : Option String)
    (now : Nat) (o : GenOutcome) (j : Json) (l1 l2 : List HistoryItem)
    (it : HistoryItem) (id : String) (l : List HistoryItem)
    (hni : noInputV2 s = false)
    (hok : (generateContentV2 apiKey s.inputText (s.selectedFile.map fileToGenerativePart)
      (s.recordedAudio.map recordedAudioBlob) s.tone s.duration o).result = .ok j)
    (hid : it.id = id)
    (hnodup : ((l1 ++ it :: l2).map HistoryItem.id).Nodup) :
    (handleGenerateV2 s apiKey now o).1.history =
      mkHistoryItem now s.inputText s.selectedFile s.tone j :: s.history ∧
    deleteHistoryItem (l1 ++ it :: l2) id = l1 ++ l2 ∧
    deleteHistoryItem (deleteHistoryItem l id) id = deleteHistoryItem l id := by
  refine ⟨?_, ?_, ?_⟩
  · simp only [handleGenerateV2, hni, Bool.false_eq_true, if_false, hok]
  · subst hid
    rw [List.map_append, List.map_cons] at hnodup
    have hmid := (List.nodup_middle).mp hnodup
    rw [List.nodup_cons] at hmid
    have hnot := hmid.1
    rw [List.mem_append] at hnot
    push_neg at hnot
    have hm1 : deleteHistoryItem l1 it.id = l1 := deleteHistory_not_mem l1 it.id hnot.1
    have hm2 : deleteHistoryItem l2 it.id = l2 := deleteHistory_not_mem l2 it.id hnot.2
    simp only [deleteHistoryItem] at hm1 hm2 ⊢
    rw [List.filter_append, List.filter_cons]
    have hhead : (it.id != it.id) = false := by simp
    rw [hhead, hm1, hm2]
    simp
  · exact deleteHistory_not_mem _ _ (deleteHistory_id_gone l id)

/-- C6 witness: a concrete successful generation over an existing history
and a concrete two-entry deletion. -/
theorem C6_history_prepend_and_delete_witness :
    noInputV2 ⟨"t", none, false, none, .creative, "Short (< 2 min)", true, none, false,
      none, .social, [⟨"9", 9, "p9", .casual, Json.null⟩], false⟩ = false ∧
    (generateContentV2 (some "k") "t" none none .creative "Short (< 2 min)"
      (.response (some "\x7b\x7d"))).result = .ok (Json.obj []) ∧
    ((((([⟨"1", 1, "p1", .witty, Json.null⟩] : List HistoryItem) ++
      (⟨"2", 2, "p2", .casual, Json.null⟩ : HistoryItem) ::
      ([⟨"3", 3, "p3", .horror, Json.null⟩] : List HistoryItem)).map
        HistoryItem.id).Nodup)) ∧
    (handleGenerateV2 ⟨"t", none, false, none, .creative, "Short (< 2 min)", true, none,
        false, none, .social, [⟨"9", 9, "p9", .casual, Json.null⟩], false⟩ (some "k") 42
        (.response (some "\x7b\x7d"))).1.history =
      mkHistoryItem 42 "t" none .creative (Json.obj []) ::
        [⟨"9", 9, "p9", .casual, Json.null⟩] ∧
    deleteHistoryItem (([⟨"1", 1, "p1", .witty, Json.null⟩] : List HistoryItem) ++
        (⟨"2", 2, "p2", .casual, Json.null⟩ : HistoryItem) ::
        ([⟨"3", 3, "p3", .horror, Json.null⟩] : List HistoryItem)) "2" =
      ([⟨"1", 1, "p1", .witty, Json.null⟩] : List HistoryItem) ++
        [⟨"3", 3, "p3", .horror, Json.null⟩] ∧
    deleteHistoryItem
        (deleteHistoryItem ([⟨"2", 2, "p2", .casual, Json.null⟩] : List HistoryItem) "2")
        "2" =
      deleteHistoryItem ([⟨"2", 2, "p2", .casual, Json.null⟩] : List HistoryItem) "2" := by
  have h := C6_history_prepend_and_delete
    ⟨"t", none, false, none, .creative, "Short (< 2 min)", true, none, false, none,
      .social, [⟨"9", 9, "p9", .casual, Json.null⟩], false⟩ (some "k") 42
    (.response (some "\x7b\x7d")) (Json.obj [])
    ([⟨"1", 1, "p1", .witty, Json.null⟩] : List HistoryItem)
    ([⟨"3", 3, "p3", .horror, Json.null⟩] : List HistoryItem)
    (⟨"2", 2, "p2", .casual, Json.null⟩ : HistoryItem) "2"
    ([⟨"2", 2, "p2", .casual, Json.null⟩] : List HistoryItem)
    rfl rfl rfl (by decide)
  exact ⟨rfl, rfl, by decide, h.1, h.2.1, h.2.2⟩

/-- C1 counterexample: a successful response whose text is the well-formed
JSON empty object, which misses every required schema field, comes back
from generateContent as a success and not as any failure condition. -/
theorem C1_missing_fields_returned :
    (generateContentV1 "t" none none .creative (.response (some "\x7b\x7d"))).result =
      .ok (Json.obj []) ∧
    requiredFieldsV1.all (fun f => jsonHasField (Json.obj []) f) = false ∧
    isGenError
      ((generateContentV1 "t" none none .creative
        (.response (some "\x7b\x7d"))).result) = false :=
  ⟨rfl, rfl, rfl⟩

/-- C1 (amended): generateContent fails when the vendor call errors, when
the response text is absent or empty, and when the text is malformed JSON;
a well-formed JSON response is returned as parsed with no client-side
check of the required schema fields, so a response missing a required
field is still returned as a success, in both variants. -/
theorem C1_generation_result (t : String) (m a : Option MediaBlob) (tone : Tone)
    (tone2 : ToneEx) (apiKey : Option String) (dur : String) (s : String) (j : Json)
    (f : String)
    (hs : s ≠ "") (hp : Json.parse s = some j) (hf : f ∈ requiredFieldsV1)
    (hmiss : jsonHasField j f = false) (hk : apiKeyMissing apiKey = false) :
    (generateContentV1 t m a tone .callError).result = .error .vendorError ∧
    (generateContentV1 t m a tone (.response none)).result = .error .noText ∧
    (generateContentV1 t m a tone (.response (some ""))).result = .error .noText ∧
    (∀ u : String, u ≠ "" → Json.parse u = none →
      (generateContentV1 t m a tone (.response (some u))).result = .error .invalidJson) ∧
    (generateContentV1 t m a tone (.response (some s))).result = .ok j ∧
    (generateContentV2 apiKey t m a tone2 dur (.response (some s))).result = .ok j := by
  refine ⟨rfl, rfl, rfl, ?_, ?_, ?_⟩
  · intro u hu hpu
    simp [generateContentV1, genResult, hu, hpu]
  · simp [generateContentV1, genResult, hs, hp]
  · simp [generateContentV2, hk, genResult, hs, hp]

/-- C1 witness: the empty JSON object as response text, missing the
facebookPost field, with a valid key in the lazy variant. -/
theorem C1_generation_result_witness :
    Json.parse "\x7b\x7d" = some (Json.obj []) ∧
    jsonHasField (Json.obj []) "facebookPost" = false ∧
    "facebookPost" ∈ requiredFieldsV1 ∧
    (generateContentV1 "t" none none .creative
      (.response (some "\x7b\x7d"))).result = .ok (Json.obj []) ∧
    (generateContentV2 (some "k") "t" none none .creative "Short (< 2 min)"
      (.response (some "\x7b\x7d"))).result = .ok (Json.obj []) := by
  have h := C1_generation_result "t" none none .creative .creative (some "k")
    "Short (< 2 min)" "\x7b\x7d" (Json.obj []) "facebookPost"
    (by decide) rfl (by decide) rfl rfl
  exact ⟨rfl, rfl, by decide, h.2.2.2.2.1, h.2.2.2.2.2⟩

/-- C4 counterexample: in the base variant a media attachment of image
MIME category is the final part of the request, immediately followed by
nothing, so not every inline part is immediately followed by a contextual
hint text part. -/
theorem C4_media_inline_without_hint :
    requestPartsV1 "Topic" (some ⟨"d", "image/png"⟩) none .creative =
      [Part.text "Generate content with a Creative tone.\nTopic/Context: Topic",
       Part.inlineData "d" "image/png"] ∧
    eachInlineFollowedByText
      (requestPartsV1 "Topic" (some ⟨"d", "image/png"⟩) none .creative) = false :=
  ⟨by decide, by decide⟩

/-- C4 (amended): both variants build the instruction text first, then the
media inline part, then the recorded-audio inline part, with inline
payloads ordered media then audio; the recorded-audio inline part is always
immediately followed by its audio hint; the duration-enabled variant
follows the media inline part with a hint keyed to its MIME category (none
for an unknown category), while the base variant never places a hint after
the media inline part. -/
theorem C4_request_structure (t : String) (tone : Tone) (tone2 : ToneEx)
    (dur : String) (m a : Option MediaBlob) :
    requestPartsV1 t m a tone =
      Part.text (promptTextV1 t tone) ::
        (mediaSectionV1 m ++ audioSection a audioHintV1) ∧
    requestPartsV2 t m a tone2 dur =
      Part.text (promptTextV2 t tone2 dur) ::
        (mediaSectionV2 m ++ audioSection a audioHintV2) ∧
    inlinePayloads (requestPartsV1 t m a tone) = payloads m a ∧
    inlinePayloads (requestPartsV2 t m a tone2 dur) = payloads m a ∧
    (∀ x, a = some x →
      ∃ pre, requestPartsV1 t m a tone =
        pre ++ [Part.inlineData x.data x.mimeType, Part.text audioHintV1]) ∧
    (∀ x, a = some x →
      ∃ pre, requestPartsV2 t m a tone2 dur =
        pre ++ [Part.inlineData x.data x.mimeType, Part.text audioHintV2]) ∧
    (∀ x, m = some x → a = none →
      requestPartsV1 t m a tone =
        [Part.text (promptTextV1 t tone), Part.inlineData x.data x.mimeType]) := by
  have e1 : requestPartsV1 t m a tone =
      Part.text (promptTextV1 t tone) ::
        (mediaSectionV1 m ++ audioSection a audioHintV1) := by
    cases m <;> cases a <;> simp [requestPartsV1, mediaSectionV1, audioSection]
  have e2 : requestPartsV2 t m a tone2 dur =
      Part.text (promptTextV2 t tone2 dur) ::
        (mediaSectionV2 m ++ audioSection a audioHintV2) := by
    cases m <;> cases a <;> simp [requestPartsV2, mediaSectionV2, audioSection]
  refine ⟨e1, e2, ?_, ?_, ?_, ?_, ?_⟩
  · rw [e1]
    cases m <;> cases a <;>
      simp [inlinePayloads_cons_text, inlinePayloads_append, inlinePayloads_cons_inline,
        mediaSectionV1, audioSection, payloads, inlinePayloads]
  · rw [e2]
    cases m <;> cases a <;>
      simp only [inlinePayloads_cons_text, inlinePayloads_append, inlinePayloads_cons_inline,
        inlinePayloads_mimeHint, mediaSectionV2, audioSection, payloads] <;>
      simp [inlinePayloads]
  · intro x hx
    subst hx
    exact ⟨Part.text (promptTextV1 t tone) :: mediaSectionV1 m, by rw [e1]; simp [audioSection]⟩
  · intro x hx
    subst hx
    exact ⟨Part.text (promptTextV2 t tone2 dur) :: mediaSectionV2 m, by rw [e2]; simp [audioSection]⟩
  · intro x hx ha
    subst hx
    subst ha
    rw [e1]
    simp [mediaSectionV1, audioSection]

/-- C7 counterexample: a failing generation in the base variant does not
return the UI to its pre-call state: the previous result, cleared at call
start, stays cleared. -/
theorem C7_failure_loses_previous_result :
    ((handleGenerateV1 ⟨"topic", none, false, none, .creative, false,
        some (Json.obj []), false, .social⟩ GenOutcome.callError).1).result = none ∧
    (⟨"topic", none, false, none, .creative, false, some (Json.obj []), false,
        .social⟩ : StateV1).result = some (Json.obj []) ∧
    ((handleGenerateV1 ⟨"topic", none, false, none, .creative, false,
        some (Json.obj []), false, .social⟩ GenOutcome.callError).1).result ≠
      (⟨"topic", none, false, none, .creative, false, some (Json.obj []), false,
        .social⟩ : StateV1).result :=
  ⟨rfl, rfl, fun h => Option.noConfusion h⟩

/-- C7 (amended): every failure is caught: the handler returns, the
loading or playing flag is cleared, the failure alert is shown, and the
rest of the state keeps its value from call start; but state already reset
at call start is not restored: the base variant keeps the result cleared
and the history variant keeps the audio download URL cleared. -/
theorem C7_failure_clears_flags (s : StateV1) (o : GenOutcome) (s2 : StateV2)
    (apiKey : Option String) (now : Nat) (o2 : GenOutcome) (ts : TTSState)
    (h1 : noInputV1 s = false) (he : isGenError (genResult o) = true)
    (h2 : noInputV2 s2 = false)
    (he2 : isGenError ((generateContentV2 apiKey s2.inputText
      (s2.selectedFile.map fileToGenerativePart) (s2.recordedAudio.map recordedAudioBlob)
      s2.tone s2.duration o2).result) = true)
    (hp : 0 < ts.pending) :
    (handleGenerateV1 s o).1 = { s with isLoading := false, result := none } ∧
    (handleGenerateV1 s o).2.alerted = some genFailAlertV1 ∧
    (handleGenerateV2 s2 apiKey now o2).1 =
      { s2 with isLoading := false, audioDownloadUrl := none } ∧
    (handleGenerateV2 s2 apiKey now o2).2.alerted = some genFailAlertV2 ∧
    (ttsStep ts .resolveErr).isPlayingAudio = false ∧
    (ttsStep ts .resolveErr).pending = ts.pending - 1 := by
  have hres : ∃ e, genResult o = .error e := by
    cases hg : genResult o with
    | ok v => rw [hg] at he; exact absurd he (by simp [isGenError])
    | error e => exact ⟨e, rfl⟩
  obtain ⟨e, hge⟩ := hres
  have hres2 : ∃ e2, (generateContentV2 apiKey s2.inputText
      (s2.selectedFile.map fileToGenerativePart) (s2.recordedAudio.map recordedAudioBlob)
      s2.tone s2.duration o2).result = .error e2 := by
    cases hg : (generateContentV2 apiKey s2.inputText
        (s2.selectedFile.map fileToGenerativePart)
        (s2.recordedAudio.map recordedAudioBlob) s2.tone s2.duration o2).result with
    | ok v => rw [hg] at he2; exact absurd he2 (by simp [isGenError])
    | error e2 => exact ⟨e2, rfl⟩
  obtain ⟨e2, hge2⟩ := hres2
  have hpz : ts.pending ≠ 0 := Nat.pos_iff_ne_zero.mp hp
  refine ⟨?_, ?_, ?_, ?_, ?_, ?_⟩
  · simp [handleGenerateV1, h1, generateContentV1, hge]
  · simp [handleGenerateV1, h1, generateContentV1, hge]
  · simp only [handleGenerateV2, h2, Bool.false_eq_true, if_false, hge2]
  · simp only [handleGenerateV2, h2, Bool.false_eq_true, if_false, hge2]
  · simp [ttsStep, hpz]
  · simp [ttsStep, hpz]

/-- C7 witness: a failing call from a state holding a previous result, a
failing call in the history variant, and a pending speech failure. -/
theorem C7_failure_clears_flags_witness :
    noInputV1 ⟨"topic", none, false, none, .creative, false, some (Json.obj []),
      false, .social⟩ = false ∧
    isGenError (genResult .callError) = true ∧
    0 < (⟨true, none, 0, [], 1, true⟩ : TTSState).pending ∧
    (handleGenerateV1 ⟨"topic", none, false, none, .creative, false,
        some (Json.obj []), false, .social⟩ GenOutcome.callError).1 =
      ⟨"topic", none, false, none, .creative, false, none, false, .social⟩ ∧
    (handleGenerateV2 ⟨"t", none, false, none, .creative, "Short (< 2 min)", true,
        some (Json.obj []), false, some (), .social, [], false⟩ (some "k") 0
        GenOutcome.callError).1 =
      ⟨"t", none, false, none, .creative, "Short (< 2 min)", false,
        some (Json.obj []), false, none, .social, [], false⟩ ∧
    (ttsStep ⟨true, none, 0, [], 1, true⟩ .resolveErr).isPlayingAudio = false := by
  have h := C7_failure_clears_flags
    ⟨"topic", none, false, none, .creative, false, some (Json.obj []), false, .social⟩
    GenOutcome.callError
    ⟨"t", none, false, none, .creative, "Short (< 2 min)", true, some (Json.obj []),
      false, some (), .social, [], false⟩
    (some "k") 0 GenOutcome.callError ⟨true, none, 0, [], 1, true⟩
    rfl rfl rfl rfl (by decide)
  exact ⟨rfl, rfl, by decide, h.1, h.2.2.1, h.2.2.2.2.1⟩

/-- C8 counterexample: pressing the toggle while a speech request is
pending desynchronizes the flag from the sources: press, press again
during the pending request, let it resolve, press again, let the second
request resolve; now two sources play at once, so the claimed invariant
that at most one source plays in every reachable state fails. -/
theorem C8_two_sources_at_once :
    1 < (ttsRun ttsInit
      [.toggle, .toggle, .resolveOk, .toggle, .resolveOk]).playing.length ∧
    (ttsRun ttsInit
      [.toggle, .toggle, .resolveOk, .toggle, .resolveOk]).playing.length = 2 :=
  ⟨by decide, by decide⟩

/-- C8 (amended): on every sequential trace, where each press happens only
while no speech request is pending, at most one source plays at a time;
pressing while audio plays stops the current source, clears the flag and
the reference, and leaves nothing playing; pressing once more starts a
fresh request cycle. -/
theorem C8_sequential_toggle_semantics (evs : List TTSEvent)
    (h : ttsSeqOk ttsInit evs = true) :
    (ttsRun ttsInit evs).playing.length ≤ 1 ∧
    ((ttsRun ttsInit evs).isPlayingAudio = true →
      (ttsStep (ttsRun ttsInit evs) .toggle).isPlayingAudio = false ∧
      (ttsStep (ttsRun ttsInit evs) .toggle).playing = [] ∧
      (ttsStep (ttsRun ttsInit evs) .toggle).audioSource = none ∧
      (ttsStep (ttsStep (ttsRun ttsInit evs) .toggle) .toggle).pending =
        (ttsRun ttsInit evs).pending + 1) := by
  have hinv := ttsRun_inv evs ttsInit ttsInit_inv h
  have hsum : (ttsRun ttsInit evs).hasSummary = true := ttsRun_hasSummary evs ttsInit
  obtain ⟨hp1, hp2, hp3, hp4, hp5⟩ := hinv
  refine ⟨hp4, fun hplay => ?_⟩
  cases hsrc : (ttsRun ttsInit evs).audioSource with
  | some id =>
    have e1 : ttsStep (ttsRun ttsInit evs) .toggle =
        { (ttsRun ttsInit evs) with
            isPlayingAudio := false
            audioSource := none
            playing := [] } := by
      simp only [ttsStep, hsum, hplay, hsrc, Bool.not_true]
      simp only [Bool.false_eq_true, if_false, if_true]
      simp
      intro x hx
      have hsx := hp5 x hx
      rw [hsrc] at hsx
      exact (Option.some_inj.mp hsx).symm
    refine ⟨by rw [e1], by rw [e1], by rw [e1], ?_⟩
    rw [e1]
    simp [ttsStep, hsum]
  | none =>
    have e1 : ttsStep (ttsRun ttsInit evs) .toggle =
        { (ttsRun ttsInit evs) with isPlayingAudio := false } := by
      simp [ttsStep, hsum, hplay, hsrc]
    have hempty : (ttsRun ttsInit evs).playing = [] := by
      cases hpl : (ttsRun ttsInit evs).playing with
      | nil => rfl
      | cons y l =>
        have := hp5 y (by rw [hpl]; exact List.mem_cons_self y l)
        rw [hsrc] at this
        exact Option.noConfusion this
    refine ⟨by rw [e1], by rw [e1]; exact hempty, by rw [e1]; exact hsrc, ?_⟩
    rw [e1]
    simp [ttsStep, hsum]

/-- C8 witness: one press followed by its resolution, then the toggle
facts at the resulting playing state. -/
theorem C8_sequential_toggle_semantics_witness :
    ttsSeqOk ttsInit [.toggle, .resolveOk] = true ∧
    ((ttsRun ttsInit [.toggle, .resolveOk]).playing.length ≤ 1 ∧
     ((ttsRun ttsInit [.toggle, .resolveOk]).isPlayingAudio = true →
       (ttsStep (ttsRun ttsInit [.toggle, .resolveOk]) .toggle).isPlayingAudio = false ∧
       (ttsStep (ttsRun ttsInit [.toggle, .resolveOk]) .toggle).playing = [] ∧
       (ttsStep (ttsRun ttsInit [.toggle, .resolveOk]) .toggle).audioSource = none ∧
       (ttsStep (ttsStep (ttsRun ttsInit [.toggle, .resolveOk]) .toggle) .toggle).pending =
         (ttsRun ttsInit [.toggle, .resolveOk]).pending + 1)) :=
  ⟨by decide, C8_sequential_toggle_semantics [.toggle, .resolveOk] (by decide)⟩

end SrotoLipi
